import Mathlib

/-!
Verification of the cx1-audit-trail-output repository.

This file gives a shallow embedding, in Lean 4, of the pure core of the
repository: the date-filtering logic of `src/objs/audit_fetcher.py`
(`parse_flexible_date`, `filter_by_date`, `add_formatted_date`,
`get_audit_events`), and the flattening / column-ordering / worksheet
logic of `src/objs/output.py` (`OutputManager._extract_scan_fields`,
the pass-through sanitization of `save_scan_results`,
`_order_columns`, `_get_logical_column_order`,
`_add_scan_worksheets_by_engine`).

Python values are modelled by the inductive type `PyVal` (JSON-style
dynamically typed data: `None`, strings, integers, booleans, lists and
string-keyed dicts; JSON numbers are modelled as integers, which covers
every value the claims mention).  Python dicts are modelled as
insertion-ordered association lists with unique keys, matching CPython
dict semantics.  Exceptions are modelled with `Except`: a raised,
uncaught exception is an `.error`; code paths whose exceptions the
source catches are folded into the corresponding fallback value, exactly
as the `try`/`except` blocks of the source do.  HTTP calls are modelled
by an explicit fetch oracle passed as a function argument; the
thread-pool fan-out of `get_audit_events` is linearized into a fold in
link-list order (the source guarantees no order anyway, and the claims
below only concern the multiset of merged records and which links are
followed).
-/

/-- Dynamically typed Python/JSON value. -/
inductive PyVal where
  | none : PyVal
  | str : String → PyVal
  | int : Int → PyVal
  | bool : Bool → PyVal
  | list : List PyVal → PyVal
  | dict : List (String × PyVal) → PyVal

/-- A Python dict with string keys (association list, insertion order). -/
abbrev PyDict := List (String × PyVal)

/-- Association-list lookup, first match wins (models `d[k]` / `d.get(k)`). -/
def lookupD : PyDict → String → Option PyVal
  | [], _ => Option.none
  | (k, v) :: rest, key => if k = key then Option.some v else lookupD rest key

/-- Models Python `d.get(k, default)`. -/
def getD (d : PyDict) (k : String) (default : PyVal) : PyVal :=
  (lookupD d k).getD default

/-- Models `d[k] = v` on a Python dict: replace in place if the key
exists (keeping its position), otherwise append at the end. -/
def dinsert : PyDict → String → PyVal → PyDict
  | [], key, v => [(key, v)]
  | (k, w) :: rest, key, v =>
    if k = key then (k, v) :: rest else (k, w) :: dinsert rest key v

/-- Python truthiness (`if value:`) for the modelled values. -/
def pyTruthy : PyVal → Bool
  | .none => false
  | .str s => s ≠ ""
  | .int n => n ≠ 0
  | .bool b => b
  | .list xs => ¬ xs.isEmpty
  | .dict xs => ¬ xs.isEmpty

mutual
/-- Python `repr(v)` for the modelled values (used by `str` on
containers).  Strings are rendered in single quotes; escaping and
Python's quote-selection subtleties are not modelled (no claim depends
on them). -/
def pyRepr : PyVal → String
  | .none => "None"
  | .str s => "\x27" ++ s ++ "\x27"
  | .int n => toString n
  | .bool b => if b then "True" else "False"
  | .list xs => "[" ++ pyReprJoinList xs ++ "]"
  | .dict xs => "\x7b" ++ pyReprJoinDict xs ++ "\x7d"

/-- Comma-separated `repr`s of the elements of a Python list. -/
def pyReprJoinList : List PyVal → String
  | [] => ""
  | [x] => pyRepr x
  | x :: xs => pyRepr x ++ ", " ++ pyReprJoinList xs

/-- Comma-separated `'key': repr(value)` entries of a Python dict. -/
def pyReprJoinDict : List (String × PyVal) → String
  | [] => ""
  | [(k, v)] => "\x27" ++ k ++ "\x27: " ++ pyRepr v
  | (k, v) :: xs => "\x27" ++ k ++ "\x27: " ++ pyRepr v ++ ", " ++ pyReprJoinDict xs
end

/-- Python `str(v)`: the string itself for strings, `repr` otherwise. -/
def pyStr : PyVal → String
  | .str s => s
  | v => pyRepr v

/-- A calendar date (the result of Python `datetime.date()`). -/
structure Date where
  year : Nat
  month : Nat
  day : Nat
deriving DecidableEq

/-- A naive datetime (year, month, day, hour, minute, second).  Fractional
seconds and the timezone suffix are validated during parsing but not
stored: none of the modelled code reads them (`.date()` and the
`strftime` formats used only read the stored fields, and neither
`dateutil.isoparse` nor `strftime` converts between timezones). -/
structure DateTime where
  year : Nat
  month : Nat
  day : Nat
  hour : Nat
  minute : Nat
  second : Nat
deriving DecidableEq

/-- The date portion of a datetime (Python `dt.date()`). -/
def DateTime.dateOf (dt : DateTime) : Date := ⟨dt.year, dt.month, dt.day⟩

/-- Gregorian leap-year test. -/
def isLeapYear (y : Nat) : Bool := (y % 4 == 0 && y % 100 != 0) || y % 400 == 0

/-- Number of days in a month (used by `datetime`'s day validation). -/
def daysInMonth (y m : Nat) : Nat :=
  if m = 2 then (if isLeapYear y then 29 else 28)
  else if m = 4 ∨ m = 6 ∨ m = 9 ∨ m = 11 then 30
  else 31

/-- Numeric value of a digit character. -/
def digitVal (c : Char) : Nat := c.toNat - 48

/-- Read exactly `n` digit characters, accumulating their value. -/
def readDigits : Nat → Nat → List Char → Option (Nat × List Char)
  | acc, 0, cs => Option.some (acc, cs)
  | acc, n + 1, c :: cs =>
    if c.isDigit then readDigits (acc * 10 + digitVal c) n cs else Option.none
  | _, _ + 1, [] => Option.none

/-- Drop a maximal run of digits, returning how many were dropped. -/
def dropDigits : List Char → Nat × List Char
  | [] => (0, [])
  | c :: cs =>
    if c.isDigit then
      let (n, r) := dropDigits cs
      (n + 1, r)
    else (0, c :: cs)

/-- Split a character list on `/` (the literal separators of the
`%m/%d/%Y` strptime patterns). -/
def splitOnSlash : List Char → List (List Char)
  | [] => [[]]
  | c :: rest =>
    if c == '/' then [] :: splitOnSlash rest
    else
      match splitOnSlash rest with
      | g :: gs => (c :: g) :: gs
      | [] => [[c]]

/-- Whether a component fully matches CPython strptime's `%m` pattern
`(1[0-2]|0[1-9]|[1-9])`. -/
def matchesMonthPat : List Char → Bool
  | [c] => decide ('1' ≤ c ∧ c ≤ '9')
  | [c1, c2] =>
    (c1 == '0' && decide ('1' ≤ c2 ∧ c2 ≤ '9')) ||
    (c1 == '1' && decide ('0' ≤ c2 ∧ c2 ≤ '2'))
  | _ => false

/-- Whether a component fully matches CPython strptime's `%d` pattern
`(3[01]|[12]\d|0[1-9]|[1-9])`. -/
def matchesDayPat : List Char → Bool
  | [c] => decide ('1' ≤ c ∧ c ≤ '9')
  | [c1, c2] =>
    (c1 == '3' && (c2 == '0' || c2 == '1')) ||
    ((c1 == '1' || c1 == '2') && c2.isDigit) ||
    (c1 == '0' && decide ('1' ≤ c2 ∧ c2 ≤ '9'))
  | _ => false

/-- Whether every character is a digit. -/
def allDigits (cs : List Char) : Bool := cs.all Char.isDigit

/-- Value of a digit string. -/
def strDigitsToNat (cs : List Char) : Nat := cs.foldl (fun n c => n * 10 + digitVal c) 0

/-- The `datetime` constructor's validation: year in `[MINYEAR, MAXYEAR]`,
month already range-checked by the callers' patterns, day valid for the
month. -/
def mkValidDate (y m d : Nat) : Option Date :=
  if 1 ≤ y ∧ y ≤ 9999 ∧ 1 ≤ m ∧ m ≤ 12 ∧ 1 ≤ d ∧ d ≤ daysInMonth y m then
    Option.some ⟨y, m, d⟩
  else Option.none

/-- One attempt of `datetime.strptime(date_str, "%m/%d/%Y")`: the strptime
regex must consume the whole string (month and day may be 1 or 2 digits,
the year exactly 4), then the `datetime` constructor validates the day
against the month. -/
def parse_mm_dd_yyyy (s : String) : Option Date :=
  match splitOnSlash s.toList with
  | [ms, ds, ys] =>
    if matchesMonthPat ms && matchesDayPat ds && ys.length == 4 && allDigits ys then
      mkValidDate (strDigitsToNat ys) (strDigitsToNat ms) (strDigitsToNat ds)
    else Option.none
  | _ => Option.none

/-- One attempt of `datetime.strptime(date_str, "%m/%d/%y")`: two-digit
years map to 2000–2068 and 1969–1999, CPython's pivot. -/
def parse_mm_dd_yy (s : String) : Option Date :=
  match splitOnSlash s.toList with
  | [ms, ds, ys] =>
    if matchesMonthPat ms && matchesDayPat ds && ys.length == 2 && allDigits ys then
      let yy := strDigitsToNat ys
      mkValidDate (if yy ≤ 68 then 2000 + yy else 1900 + yy)
        (strDigitsToNat ms) (strDigitsToNat ds)
    else Option.none
  | _ => Option.none

/-- Source `parse_flexible_date` (audit_fetcher.py): try `%m/%d/%Y`, then
`%m/%d/%y`; `Option.none` models the final raised `ValueError`. -/
def parse_flexible_date (s : String) : Option Date :=
  match parse_mm_dd_yyyy s with
  | Option.some d => Option.some d
  | Option.none => parse_mm_dd_yy s

/-- Timezone suffix of an ISO-8601 string: empty, `Z`, or `±HH[[:]MM]`. -/
def parseTZ : List Char → Bool
  | [] => true
  | ['Z'] => true
  | c :: cs =>
    if c == '+' || c == '-' then
      match readDigits 0 2 cs with
      | Option.some (hh, rest) =>
        (match rest with
         | [] => decide (hh ≤ 23)
         | ':' :: rest2 =>
           (match readDigits 0 2 rest2 with
            | Option.some (mm, []) => decide (hh ≤ 23 ∧ mm ≤ 59)
            | _ => false)
         | _ =>
           (match readDigits 0 2 rest with
            | Option.some (mm, []) => decide (hh ≤ 23 ∧ mm ≤ 59)
            | _ => false))
      | Option.none => false
    else false

/-- Time-of-day part of an extended ISO-8601 string: `HH[:MM[:SS[.f+]]]`
followed by an optional timezone; fractional seconds (1–6 digits after
`.` or `,`) are validated and discarded. -/
def isoparseTime (cs : List Char) : Option (Nat × Nat × Nat) :=
  match readDigits 0 2 cs with
  | Option.none => Option.none
  | Option.some (hh, rest) =>
    match rest with
    | ':' :: r1 =>
      (match readDigits 0 2 r1 with
       | Option.none => Option.none
       | Option.some (mi, rest2) =>
         match rest2 with
         | ':' :: r2 =>
           (match readDigits 0 2 r2 with
            | Option.none => Option.none
            | Option.some (ss, rest3) =>
              match rest3 with
              | '.' :: r3 | ',' :: r3 =>
                let (n, r4) := dropDigits r3
                if (1 ≤ n && n ≤ 6) && parseTZ r4 then Option.some (hh, mi, ss)
                else Option.none
              | r3 => if parseTZ r3 then Option.some (hh, mi, ss) else Option.none)
         | r2 => if parseTZ r2 then Option.some (hh, mi, 0) else Option.none)
    | r1 => if parseTZ r1 then Option.some (hh, 0, 0) else Option.none

/-- Model of `dateutil.parser.isoparse` restricted to the extended
ISO-8601 forms the upstream API produces: `YYYY-MM-DD`, optionally
followed by `T` and a time.  The basic (separator-free) forms dateutil
also accepts are not modelled; no claim uses them.  Range validation
matches the `datetime` constructor. -/
def isoparse (s : String) : Option DateTime :=
  match readDigits 0 4 s.toList with
  | Option.some (y, '-' :: r1) =>
    (match readDigits 0 2 r1 with
     | Option.some (m, '-' :: r2) =>
       (match readDigits 0 2 r2 with
        | Option.some (d, rest) =>
          (match (match rest with
                  | [] => Option.some (0, 0, 0)
                  | 'T' :: tr => isoparseTime tr
                  | _ => Option.none : Option (Nat × Nat × Nat)) with
           | Option.some (hh, mi, ss) =>
             if 1 ≤ y ∧ y ≤ 9999 ∧ 1 ≤ m ∧ m ≤ 12 ∧ 1 ≤ d ∧ d ≤ daysInMonth y m ∧
                 hh ≤ 23 ∧ mi ≤ 59 ∧ ss ≤ 59 then
               Option.some ⟨y, m, d, hh, mi, ss⟩
             else Option.none
           | Option.none => Option.none)
        | _ => Option.none)
     | _ => Option.none)
  | _ => Option.none

/-- Model of `datetime.fromisoformat` as used on `createdAt` values (the
source first replaces `Z` with `+00:00`).  Modelled with the same
accepted grammar as `isoparse`; the differences between the two parsers
(and between CPython versions) lie in forms no claim exercises. -/
def fromisoformat (s : String) : Option DateTime := isoparse s

/-- Zero-pad to two digits (strftime `%m`, `%d`, `%H`, `%M`, `%S`). -/
def pad2 (n : Nat) : String := if n < 10 then "0" ++ toString n else toString n

/-- Zero-pad to four digits (strftime `%Y`). -/
def pad4 (n : Nat) : String :=
  if n < 10 then "000" ++ toString n
  else if n < 100 then "00" ++ toString n
  else if n < 1000 then "0" ++ toString n
  else toString n

/-- strftime `"%m/%d/%Y %H:%M"` (the `FormattedEventDate` format). -/
def strftime_mdY_HM (dt : DateTime) : String :=
  pad2 dt.month ++ "/" ++ pad2 dt.day ++ "/" ++ pad4 dt.year ++ " " ++
    pad2 dt.hour ++ ":" ++ pad2 dt.minute

/-- strftime `"%m/%d/%Y %H:%M:%S"` (the `created_date` format). -/
def strftime_mdY_HMS (dt : DateTime) : String :=
  strftime_mdY_HM dt ++ ":" ++ pad2 dt.second

/-- Python date comparison (`date() <= date()`): lexicographic. -/
def dateLe (a b : Date) : Bool :=
  decide (a.year < b.year ∨ (a.year = b.year ∧
    (a.month < b.month ∨ (a.month = b.month ∧ a.day ≤ b.day))))

/-- Characters stripped by Python `str.strip()` (ASCII whitespace;
Unicode space characters are not modelled). -/
def isPySpace (c : Char) : Bool :=
  c == ' ' || c == '\t' || c == '\n' || c == '\r' || c == '\x0b' || c == '\x0c'

/-- Python `s.strip()`. -/
def pyStrip (s : String) : String :=
  String.mk (((s.toList.dropWhile isPySpace).reverse.dropWhile isPySpace).reverse)

/-- Python `", ".join(str(item) for item in value)`. -/
def commaJoin (items : List PyVal) : String :=
  String.intercalate ", " (items.map pyStr)

/-- The emptiness test of the pass-through sanitization:
`value is None or value == "" or (isinstance(value, str) and value.strip() == "")`. -/
def isNoneOrEmptyStr (v : PyVal) : Bool :=
  match v with
  | .none => true
  | .str s => s == "" || pyStrip s == ""
  | _ => false

/-- The per-value pass-through sanitization applied by
`save_scan_results` (output.py lines 100–118, identical in
`_add_scan_worksheets_by_engine`) to every field not consumed by
`_extract_scan_fields`. -/
def sanitizeVal (v : PyVal) : PyVal :=
  if isNoneOrEmptyStr v then .str "NA"
  else
    match v with
    | .list items => if items.isEmpty then .str "NA" else .str (commaJoin items)
    | .dict entries => if entries.isEmpty then .str "NA" else .str (pyStr (.dict entries))
    | w => w

/-- The `ValueError` raised by `parse_flexible_date` on an unparseable
bound.  The spec's error taxonomy (§7) names this failure
`DateFormatError`. -/
structure DateFormatError where
  msg : String
deriving DecidableEq

/-- The message of the raised error, as formatted by the source. -/
def dateFormatErrorMsg (s : String) : String :=
  "Date \x27" ++ s ++ "\x27 is not in MM/DD/YY or MM/DD/YYYY format."

/-- Models `parse_flexible_date(bound) if bound else None` inside
`filter_by_date`: an empty (falsy) bound is no bound; a non-empty
unparseable bound raises. -/
def parseBound (s : String) : Except DateFormatError (Option Date) :=
  if s ≠ "" then
    match parse_flexible_date s with
    | Option.some d => .ok (Option.some d)
    | Option.none => .error ⟨dateFormatErrorMsg s⟩
  else .ok Option.none

/-- Models `isoparse(event["eventDate"])` inside the per-record `try`:
a non-dict record, a missing key, a non-string value or an unparseable
string all raise and yield no datetime. -/
def eventDT (e : PyVal) : Option DateTime :=
  match e with
  | .dict kvs =>
    (match lookupD kvs "eventDate" with
     | Option.some (.str s) => isoparse s
     | _ => Option.none)
  | _ => Option.none

/-- The per-record condition of `filter_by_date`'s loop: the record's
parsed date portion lies within the optional bounds; a record whose
timestamp fails to parse is dropped (the `except ... continue`). -/
def keepEvent (fromDt toDt : Option Date) (e : PyVal) : Bool :=
  match eventDT e with
  | Option.some dt =>
    (match fromDt with
     | Option.none => true
     | Option.some f => dateLe f dt.dateOf) &&
    (match toDt with
     | Option.none => true
     | Option.some t => dateLe dt.dateOf t)
  | Option.none => false

/-- Source `filter_by_date` (audit_fetcher.py lines 85–113): parse the
two bounds (raising `DateFormatError` before touching any record), then
keep exactly the records within range. -/
def filter_by_date (events : List PyVal) (from_date to_date : String) :
    Except DateFormatError (List PyVal) :=
  match parseBound from_date with
  | .error e => .error e
  | .ok fromDt =>
    match parseBound to_date with
    | .error e => .error e
    | .ok toDt => .ok (events.filter (keepEvent fromDt toDt))

/-- Source `add_formatted_date`: add a `FormattedEventDate` field
(format `%m/%d/%Y %H:%M`) to every item whose `eventDate` parses; items
that raise are left unchanged (logged in the source). -/
def add_formatted_date (items : List PyVal) : List PyVal :=
  items.map fun item =>
    match item with
    | .dict kvs =>
      (match lookupD kvs "eventDate" with
       | Option.some (.str s) =>
         (match isoparse s with
          | Option.some dt =>
            .dict (dinsert kvs "FormattedEventDate" (.str (strftime_mdY_HM dt)))
          | Option.none => .dict kvs)
       | _ => .dict kvs)
    | v => v

/-- The relevant content of the root `/audit` response:
`audit_request_response.get("events", [])` and `.get("links", [])`. -/
structure AuditResponse where
  events : List PyVal
  links : List PyVal

/-- The dictionary returned by `get_audit_events`. -/
structure AuditResult where
  events : List PyVal
  links : List PyVal
  curl_audit_request_equivalent : String
  curl_equivalents_for_links : List String

/-- The curl string built for the root request. -/
def rootCurl (base_url : String) : String :=
  "curl -X GET \x27" ++ base_url ++ "/audit\x27 -H \x27Authorization: Bearer <token>\x27"

/-- One step of the result-collection loop of `get_audit_events`: a
completed link task either contributes its events and curl command, or
fails, is logged, and contributes nothing. -/
def collectLinkStep (fetch : PyVal → Except String (List PyVal × String))
    (acc : List PyVal × List String) (link : PyVal) : List PyVal × List String :=
  match fetch link with
  | .ok (evs, curl) => (acc.1 ++ evs, acc.2 ++ [curl])
  | .error _ => acc

/-- Source `get_audit_events` (audit_fetcher.py lines 149–190), with the
HTTP layer abstracted: `resp` is the decoded root response and `fetch`
the oracle for one link task (`fetch_events_from_link`: the link's
decoded event collection plus its curl string, or a raised exception).
The thread-pool completion order is linearized to link-list order; the
source guarantees no ordering.  Date bounds use `""` for Python
`None`/empty (both falsy in the source's `if from_date or to_date`). -/
def get_audit_events (base_url : String)
    (fetch : PyVal → Except String (List PyVal × String))
    (resp : AuditResponse) (from_date to_date : String) :
    Except DateFormatError AuditResult :=
  match (if from_date ≠ "" ∨ to_date ≠ "" then filter_by_date resp.events from_date to_date
         else .ok resp.events) with
  | .error e => .error e
  | .ok filtered_events =>
    match (if from_date ≠ "" ∨ to_date ≠ "" then filter_by_date resp.links from_date to_date
           else .ok resp.links) with
    | .error e => .error e
    | .ok filtered_links =>
      let collected := filtered_links.foldl (collectLinkStep fetch) (filtered_events, [])
      .ok { events := add_formatted_date collected.1,
            links := add_formatted_date filtered_links,
            curl_audit_request_equivalent := rootCurl base_url,
            curl_equivalents_for_links := collected.2 }

/-- Characters after the first `@`, if any. -/
def dropThroughAt : List Char → Option (List Char)
  | [] => Option.none
  | c :: cs => if c == '@' then Option.some cs else dropThroughAt cs

/-- Model of `re.sub(r'https://[^@]*@', 'https://', url)`: at each
position, the pattern matches iff the text starts with `https://` and an
`@` occurs later (the greedy `[^@]*` runs to the first `@`); the match
is replaced by `https://` and scanning resumes after it.  Structural
recursion on a fuel argument; each step strictly shrinks the text, so
`subCreds` starts the scan with fuel equal to the text length. -/
def subCredsFuel : Nat → List Char → List Char
  | 0, cs => cs
  | _ + 1, [] => []
  | fuel + 1, c :: rest =>
    if "https://".toList.isPrefixOf (c :: rest) then
      match dropThroughAt (List.drop 8 (c :: rest)) with
      | Option.some after => "https://".toList ++ subCredsFuel fuel after
      | Option.none => c :: subCredsFuel fuel rest
    else c :: subCredsFuel fuel rest

/-- The credential-stripping regex substitution on a character list. -/
def subCreds (cs : List Char) : List Char := subCredsFuel cs.length cs

/-- Credential-stripping of repository URLs in `_extract_scan_fields`. -/
def stripCredentials (s : String) : String := String.mk (subCreds s.toList)

/-- The repository-details block of `_extract_scan_fields` (output.py
lines 362–403): `repository_type`, `repository_url`, `branch`,
`project_id`.  A non-string `repo_url` other than `'NA'` reaches
`re.sub`, whose uncaught `TypeError` is the `.error` case. -/
def repoFields (scan : PyDict) (metadata : PyVal) :
    Except String (PyVal × PyVal × PyVal × PyVal) :=
  match metadata with
  | .dict md =>
    let repository_type := getD md "type" (.str "NA")
    let project_id :=
      match getD md "project" (.dict []) with
      | .dict p => getD p "id" (getD scan "projectId" (.str "NA"))
      | _ => getD scan "projectId" (.str "NA")
    (match getD md "Handler" (.dict []) with
     | .dict h =>
       (match getD h "GitHandler" (.dict []) with
        | .dict g =>
          let repo_url := getD g "repo_url" (.str "NA")
          (match repo_url with
           | .str s =>
             let ru := if s = "NA" then PyVal.str "NA" else .str (stripCredentials s)
             .ok (repository_type, ru, getD g "branch" (getD scan "branch" (.str "NA")),
               project_id)
           | _ => .error "TypeError: re.sub on a non-string repo_url")
        | _ =>
          .ok (repository_type, .str "NA", getD scan "branch" (.str "NA"), project_id))
     | _ => .ok (repository_type, .str "NA", getD scan "branch" (.str "NA"), project_id))
  | _ =>
    .ok (.str "NA", .str "NA", getD scan "branch" (.str "NA"),
      getD scan "projectId" (.str "NA"))

/-- Models `', '.join(vals)`, which raises `TypeError` when an element is
not a string. -/
def joinComma : List PyVal → Except String String
  | vals => (go vals).map (String.intercalate ", ")
where
  go : List PyVal → Except String (List String)
    | [] => .ok []
    | .str s :: rest => (go rest).map (s :: ·)
    | _ :: _ => .error "TypeError: join on a non-string element"

/-- One iteration of the `for config in configs` loop of
`_extract_scan_fields` (output.py lines 413–440), accumulating
`(enabled_engines, sast_preset, sca_containers, microengines_config)`. -/
def configStep (acc : List PyVal × PyVal × PyVal × PyVal) (config : PyVal) :
    List PyVal × PyVal × PyVal × PyVal :=
  match config with
  | .dict c =>
    let (enabled, sastPreset, scaContainers, micro) := acc
    let config_type := getD c "type" (.str "")
    let enabled := if pyTruthy config_type then enabled ++ [config_type] else enabled
    (match config_type with
     | .str "sast" =>
       (match getD c "value" (.dict []) with
        | .dict v =>
          let preset := getD v "presetName" (.str "")
          let incremental := getD v "incremental" (.str "")
          let sastPreset :=
            if pyTruthy preset || pyTruthy incremental then
              PyVal.str ("Preset: " ++ pyStr preset ++ ", Incremental: " ++ pyStr incremental)
            else .str "Default"
          (enabled, sastPreset, scaContainers, micro)
        | _ => (enabled, sastPreset, scaContainers, micro))
     | .str "sca" =>
       (match getD c "value" (.dict []) with
        | .dict v => (enabled, sastPreset, getD v "enableContainersScan" (.str "false"), micro)
        | _ => (enabled, sastPreset, scaContainers, micro))
     | .str "microengines" =>
       (match getD c "value" (.dict []) with
        | .dict v =>
          let engines := (v.filter fun kv =>
            match kv.2 with
            | .str "true" => true
            | _ => false).map Prod.fst
          let micro :=
            if engines.isEmpty then PyVal.str "None" else .str (String.intercalate ", " engines)
          (enabled, sastPreset, scaContainers, micro)
        | _ => (enabled, sastPreset, scaContainers, micro))
     | _ => (enabled, sastPreset, scaContainers, micro))
  | _ => acc

/-- The engine-configuration block of `_extract_scan_fields` (output.py
lines 405–450): `enabled_scan_engines`, `sast_configuration`,
`sca_containers_enabled`, `microengines_enabled`.  `', '.join` over a
non-string engine name raises (uncaught), hence `Except`. -/
def configFields (metadata : PyVal) : Except String (PyVal × PyVal × PyVal × PyVal) :=
  let configs :=
    match metadata with
    | .dict md => getD md "configs" (.list [])
    | _ => PyVal.list []
  match configs with
  | .list cfgs =>
    let (enabled, sastPreset, scaContainers, micro) :=
      cfgs.foldl configStep ([], .str "NA", .str "NA", .str "NA")
    match (if enabled.isEmpty then Except.ok (PyVal.str "NA")
           else (joinComma enabled).map PyVal.str) with
    | .error e => .error e
    | .ok ee => .ok (ee, sastPreset, scaContainers, micro)
  | _ => .ok (.str "NA", .str "NA", .str "NA", .str "NA")

/-- Python `s.replace('Z', '+00:00')` (the literal pattern used on
`createdAt` values). -/
def replaceZOffset : List Char → List Char
  | [] => []
  | c :: cs => if c == 'Z' then '+' :: '0' :: '0' :: ':' :: '0' :: '0' :: replaceZOffset cs
    else c :: replaceZOffset cs

/-- Civil date from days since the Unix epoch (Howard Hinnant's
algorithm). -/
def civilFromDays (z0 : Int) : Int × Nat × Nat :=
  let z := z0 + 719468
  let era := z.fdiv 146097
  let doe := (z - era * 146097).toNat
  let yoe := (doe - doe / 1460 + doe / 36524 - doe / 146096) / 365
  let y := (yoe : Int) + era * 400
  let doy := doe - (365 * yoe + yoe / 4 - yoe / 100)
  let mp := (5 * doy + 2) / 153
  let d := doy - (153 * mp + 2) / 5 + 1
  let m := if mp < 10 then mp + 3 else mp - 9
  (if m ≤ 2 then y + 1 else y, m, d)

/-- Model of `datetime.fromtimestamp(seconds)`, rendered in UTC.  CPython
uses the process's local timezone here, so the wall-clock fields are
environment-dependent; no claim depends on this value. -/
def fromtimestampUTC (n : Int) : DateTime :=
  let days := n.fdiv 86400
  let secs := (n - days * 86400).toNat
  let (y, m, d) := civilFromDays days
  ⟨y.toNat, m, d, secs / 3600, secs % 3600 / 60, secs % 60⟩

/-- The created-date block of `_extract_scan_fields` (output.py lines
452–479).  `ca` is `scan.get('createdAt')`.  Every exception in the two
`try` blocks (non-string `createdAt`, unparseable string, non-numeric
`seconds`) is caught and yields `'NA'`. -/
def createdDateField (ca : Option PyVal) (metadata : PyVal) : PyVal :=
  let caV := ca.getD .none
  if pyTruthy caV then
    match caV with
    | .str s =>
      (match fromisoformat (String.mk (replaceZOffset s.toList)) with
       | Option.some dt => .str (strftime_mdY_HMS dt)
       | Option.none => .str "NA")
    | _ => .str "NA"
  else
    match metadata with
    | .dict md =>
      (match getD md "created_at" (.dict []) with
       | .dict cad =>
         let seconds := getD cad "seconds" (.int 0)
         if pyTruthy seconds then
           match seconds with
           | .int n => .str (strftime_mdY_HMS (fromtimestampUTC n))
           | _ => .str "NA"
         else .str "NA"
       | _ => .str "NA")
    | _ => .str "NA"

/-- The engine statuses initialized to `'NA'` by the status-details
block, in source insertion order (`sast_lines_of_code` right after
`sast_status`). -/
def initEngineStatuses : PyDict :=
  [("general_status", .str "NA"), ("sast_status", .str "NA"), ("sast_lines_of_code", .str "NA"),
   ("sca_status", .str "NA"), ("apisec_status", .str "NA"), ("containers_status", .str "NA"),
   ("kics_status", .str "NA"), ("microengines_status", .str "NA")]

/-- One iteration of the `for status in status_details` loop (output.py
lines 494–510): overwrite `f'{name}_status'`, and for the `sast` engine
also `sast_lines_of_code` (`str(loc) if loc else 'NA'`). -/
def applyStatusDetail (acc : PyDict) (status : PyVal) : PyDict :=
  match status with
  | .dict st =>
    let engine_name := getD st "name" (.str "")
    let engine_status := getD st "status" (.str "NA")
    if pyTruthy engine_name then
      let acc := dinsert acc (pyStr engine_name ++ "_status") engine_status
      match engine_name with
      | .str "sast" =>
        let loc := getD st "loc" (.int 0)
        dinsert acc "sast_lines_of_code" (if pyTruthy loc then .str (pyStr loc) else .str "NA")
      | _ => acc
    else acc
  | _ => acc

/-- The status-details block of `_extract_scan_fields` (output.py lines
481–518): initialize every known engine status to `'NA'`, then fold the
actual detail entries; a non-list `statusDetails` gets the all-`'NA'`
row (in that branch's own insertion order, `sast_lines_of_code` last). -/
def statusFields (statusDetails : PyVal) : PyDict :=
  match statusDetails with
  | .list sd => sd.foldl applyStatusDetail initEngineStatuses
  | _ =>
    [("general_status", .str "NA"), ("sast_status", .str "NA"), ("sca_status", .str "NA"),
     ("apisec_status", .str "NA"), ("containers_status", .str "NA"), ("kics_status", .str "NA"),
     ("microengines_status", .str "NA"), ("sast_lines_of_code", .str "NA")]

/-- Source `OutputManager._extract_scan_fields` (output.py lines
351–522): the fixed extracted fields, in the source's dict insertion
order. -/
def extract_scan_fields (scan : PyDict) : Except String PyDict :=
  let metadata := getD scan "metadata" (.dict [])
  match repoFields scan metadata with
  | .error e => .error e
  | .ok (repository_type, repository_url, branch, project_id) =>
  match configFields metadata with
  | .error e => .error e
  | .ok (enabled_scan_engines, sast_configuration, sca_containers_enabled,
      microengines_enabled) =>
  let created_date := createdDateField (lookupD scan "createdAt") metadata
  .ok ([("scan_id", getD scan "id" (.str "NA")),
        ("repository_type", repository_type),
        ("repository_url", repository_url),
        ("branch", branch),
        ("project_id", project_id),
        ("enabled_scan_engines", enabled_scan_engines),
        ("sast_configuration", sast_configuration),
        ("sca_containers_enabled", sca_containers_enabled),
        ("microengines_enabled", microengines_enabled),
        ("created_date", created_date)] ++
       statusFields (getD scan "statusDetails" (.list [])))

/-- One iteration of the pass-through loop of `save_scan_results`
(output.py lines 100–118): a field whose key was already produced is
skipped, every other field is appended sanitized. -/
def passStep (row : PyDict) (kv : String × PyVal) : PyDict :=
  if (lookupD row kv.1).isSome then row else row ++ [(kv.1, sanitizeVal kv.2)]

/-- Flattening of one scan record as performed by `save_scan_results`:
`_extract_scan_fields`, then the pass-through sanitization of the
remaining fields. -/
def flatten_scan (scan : PyDict) : Except String PyDict :=
  match extract_scan_fields scan with
  | .error e => .error e
  | .ok extracted => .ok (scan.foldl passStep extracted)

/-- Helper: the shape of the extracted fields for a scan record without
a `metadata` or `statusDetails` key, abstracted over the four values
that still depend on the record (`scan_id`, `branch`, `project_id`,
`created_date`). -/
def noMetaExtractRow (a b c d : PyVal) : PyDict :=
  [("scan_id", a), ("repository_type", .str "NA"), ("repository_url", .str "NA"),
   ("branch", b), ("project_id", c), ("enabled_scan_engines", .str "NA"),
   ("sast_configuration", .str "NA"), ("sca_containers_enabled", .str "NA"),
   ("microengines_enabled", .str "NA"), ("created_date", d)] ++ initEngineStatuses

/-- The fixed fields produced by `_extract_scan_fields` (the fields the
idempotence claim ranges over). -/
def fixedScanFields : List String :=
  ["scan_id", "repository_type", "repository_url", "branch", "project_id",
   "enabled_scan_engines", "sast_configuration", "sca_containers_enabled",
   "microengines_enabled", "created_date", "general_status", "sast_status",
   "sast_lines_of_code", "sca_status", "apisec_status", "containers_status",
   "kics_status", "microengines_status"]

/-- Source `OutputManager._get_logical_column_order` (output.py lines
549–594): the fixed priority list of known column names. -/
def logical_column_order : List String :=
  ["FormattedEventDate", "created_date", "projectName", "status",
   "repository_url", "branch", "repository_type", "sourceType", "sourceOrigin", "initiator",
   "enabled_scan_engines", "sast_configuration", "sca_containers_enabled",
   "microengines_enabled",
   "general_status", "sast_status", "sast_lines_of_code", "sca_status", "apisec_status",
   "containers_status", "kics_status", "microengines_status",
   "scan_id", "project_id", "createdAt", "updatedAt", "userAgent", "engines", "tags",
   "statusDetails", "metadata"]

/-- Source `OutputManager._order_columns` (output.py lines 596–610).
The argument models the Python set of discovered column names as a list;
only its membership and its distinct elements are used (`sorted` over a
set yields the lexicographically sorted distinct elements). -/
def order_columns (all_columns : List String) : List String :=
  let ordered := logical_column_order.foldl
    (fun acc col => if col ∈ all_columns then acc ++ [col] else acc) []
  ordered ++ List.insertionSort (· ≤ ·) (all_columns.dedup.filter (fun c => c ∉ ordered))

mutual
/-- Python `==` on the modelled values (used for dict-key comparison when
grouping scans by engine). -/
def pyEq : PyVal → PyVal → Bool
  | .none, .none => true
  | .str a, .str b => a == b
  | .int a, .int b => a == b
  | .bool a, .bool b => a == b
  | .list a, .list b => pyEqList a b
  | .dict a, .dict b => pyEqDict a b
  | _, _ => false

/-- Elementwise `==` on Python lists. -/
def pyEqList : List PyVal → List PyVal → Bool
  | [], [] => true
  | a :: as', b :: bs => pyEq a b && pyEqList as' bs
  | _, _ => false

/-- Entrywise `==` on Python dicts (order-sensitive; sufficient for the
scalar engine keys the grouping uses). -/
def pyEqDict : List (String × PyVal) → List (String × PyVal) → Bool
  | [], [] => true
  | (k, v) :: as', (k2, v2) :: bs => k == k2 && pyEq v v2 && pyEqDict as' bs
  | _, _ => false
end

/-- Append a scan to its engine's group, keeping first-seen group order
(Python dict insertion order). -/
def addToGroup : List (PyVal × List PyDict) → PyVal → PyDict → List (PyVal × List PyDict)
  | [], engine, scan => [(engine, [scan])]
  | (e, ss) :: rest, engine, scan =>
    if pyEq e engine then (e, ss ++ [scan]) :: rest
    else (e, ss) :: addToGroup rest engine scan

/-- The grouping loop of `_add_scan_worksheets_by_engine` (output.py
lines 288–295): partition the scans by
`scan.get("engine", scan.get("scanEngine", scan.get("type", "Unknown Engine")))`. -/
def groupScansByEngine (scans : List PyDict) : List (PyVal × List PyDict) :=
  scans.foldl
    (fun groups scan =>
      addToGroup groups
        (getD scan "engine" (getD scan "scanEngine" (getD scan "type" (.str "Unknown Engine"))))
        scan)
    []

/-- The sanitized sheet name the source computes:
`str(engine_name).replace("/", "-")[:31]` (output.py line 299).  The
source then ignores it. -/
def safe_sheet_name (engine_name : PyVal) : String :=
  String.mk (((pyStr engine_name).toList.map fun c => if c == '/' then '-' else c).take 31)

/-- The worksheet titles actually created by
`_add_scan_worksheets_by_engine`: one worksheet per engine group, each
created with `workbook.create_sheet(title=f"Scans")` (output.py line
300) — the literal string `"Scans"`, not the computed safe name. -/
def scanWorksheetTitles (scans : List PyDict) : List String :=
  (groupScansByEngine scans).map fun _ => "Scans"

/-! Helper lemmas. -/

theorem lookupD_append (xs ys : PyDict) (k : String) :
    lookupD (xs ++ ys) k =
      (match lookupD xs k with
       | Option.some v => Option.some v
       | Option.none => lookupD ys k) := by
  induction xs with
  | nil => simp [lookupD]
  | cons e rest ih =>
    obtain ⟨k1, v1⟩ := e
    by_cases h : k1 = k
    · simp [lookupD, h]
    · simp [lookupD, h, ih]

theorem lookupD_foldl_passStep_some {row : PyDict} {k : String} {v : PyVal}
    (entries : List (String × PyVal)) (h : lookupD row k = Option.some v) :
    lookupD (entries.foldl passStep row) k = Option.some v := by
  induction entries generalizing row with
  | nil => exact h
  | cons e rest ih =>
    simp only [List.foldl_cons]
    apply ih
    unfold passStep
    by_cases hmem : (lookupD row e.1).isSome
    · simp [hmem, h]
    · simp [hmem, lookupD_append, h]

theorem lookupD_foldl_passStep_none {k : String}
    (entries : List (String × PyVal)) (row : PyDict) (h : lookupD row k = Option.none) :
    lookupD (entries.foldl passStep row) k = (lookupD entries k).map sanitizeVal := by
  induction entries generalizing row with
  | nil => simp [lookupD, h]
  | cons e rest ih =>
    obtain ⟨k1, v1⟩ := e
    simp only [List.foldl_cons]
    by_cases hk : k1 = k
    · subst hk
      have hstep : passStep row (k1, v1) = row ++ [(k1, sanitizeVal v1)] := by
        simp [passStep, h]
      rw [hstep]
      have hlook : lookupD (row ++ [(k1, sanitizeVal v1)]) k1 = Option.some (sanitizeVal v1) := by
        rw [lookupD_append]
        simp [h, lookupD]
      rw [lookupD_foldl_passStep_some rest hlook]
      simp [lookupD]
    · by_cases hmem : (lookupD row k1).isSome
      · have hstep : passStep row (k1, v1) = row := by simp [passStep, hmem]
        rw [hstep, ih row h]
        simp [lookupD, hk]
      · have hstep : passStep row (k1, v1) = row ++ [(k1, sanitizeVal v1)] := by
          simp [passStep, hmem]
        rw [hstep]
        have h2 : lookupD (row ++ [(k1, sanitizeVal v1)]) k = Option.none := by
          rw [lookupD_append]
          simp [h, lookupD, hk]
        rw [ih _ h2]
        simp [lookupD, hk]

theorem dateLe_and_dateLe (D d : Date) : (dateLe D d && dateLe d D) = decide (d = D) := by
  obtain ⟨a, b, c⟩ := D
  obtain ⟨x, y, z⟩ := d
  simp only [dateLe, ← Bool.decide_and, Date.mk.injEq, decide_eq_decide]
  omega

theorem parse_flexible_date_ne_empty {s : String} {D : Date}
    (h : parse_flexible_date s = Option.some D) : s ≠ "" := by
  intro hs
  rw [hs] at h
  rw [show parse_flexible_date "" = Option.none from rfl] at h
  cases h

/-! Claim theorems. -/

/-- C7: In the pass-through sanitization step of scan flattening, for
every field not consumed by an extraction rule: `None`, the empty string
and whitespace-only strings become the sentinel `"NA"`; a non-empty
sequence becomes the comma-joined string of its elements and an empty
sequence becomes `"NA"`; a non-empty mapping becomes its string
representation and an empty mapping becomes `"NA"`; any other value is
kept unmodified (and the step appends exactly the sanitized value for
every not-yet-present key). -/
theorem C7_pass_through_sanitization :
    sanitizeVal .none = .str "NA" ∧
    (∀ s : String, pyStrip s = "" → sanitizeVal (.str s) = .str "NA") ∧
    (∀ s : String, pyStrip s ≠ "" → sanitizeVal (.str s) = .str s) ∧
    (∀ items : List PyVal, items ≠ [] →
      sanitizeVal (.list items) = .str (String.intercalate ", " (items.map pyStr))) ∧
    sanitizeVal (.list []) = .str "NA" ∧
    (∀ entries : PyDict, entries ≠ [] →
      sanitizeVal (.dict entries) = .str (pyRepr (.dict entries))) ∧
    sanitizeVal (.dict []) = .str "NA" ∧
    (∀ n : Int, sanitizeVal (.int n) = .int n) ∧
    (∀ b : Bool, sanitizeVal (.bool b) = .bool b) ∧
    (∀ (row : PyDict) (kv : String × PyVal), lookupD row kv.1 = Option.none →
      passStep row kv = row ++ [(kv.1, sanitizeVal kv.2)]) := by
  refine ⟨rfl, ?_, ?_, ?_, rfl, ?_, rfl, fun _ => rfl, fun _ => rfl, ?_⟩
  · intro s hs
    simp [sanitizeVal, isNoneOrEmptyStr, hs]
  · intro s hs
    have hne : s ≠ "" := by
      intro h
      exact hs (by rw [h]; rfl)
    simp [sanitizeVal, isNoneOrEmptyStr, hs, hne]
  · intro items hi
    simp [sanitizeVal, isNoneOrEmptyStr, List.isEmpty_iff, hi, commaJoin]
  · intro entries he
    simp [sanitizeVal, isNoneOrEmptyStr, List.isEmpty_iff, he, pyStr]
  · intro row kv h
    simp [passStep, h]

/-- C7 witness: the claim's own example, `["a","b"]` flattens to
`"a, b"`, an empty list to `"NA"`, plus a whitespace-only string. -/
theorem C7_witness :
    sanitizeVal (.list [.str "a", .str "b"]) = .str "a, b" ∧
    sanitizeVal (.list []) = .str "NA" ∧
    sanitizeVal (.str "  ") = .str "NA" := by
  obtain ⟨h1, h2, h3, h4, h5, h6, h7, h8, h9, h10⟩ := C7_pass_through_sanitization
  refine ⟨?_, h5, h2 "  " (by rfl)⟩
  rw [h4 [.str "a", .str "b"] (by simp)]
  rfl

/-- C3: For every collection of records in which every record has a
parseable timestamp, filtering with no bounds returns the collection
unchanged (same records, same order). -/
theorem C3_no_bounds_identity (events : List PyVal)
    (h : ∀ e ∈ events, (eventDT e).isSome) :
    filter_by_date events "" "" = .ok events := by
  have hpb : parseBound "" = .ok Option.none := by rfl
  simp only [filter_by_date, hpb]
  congr 1
  rw [List.filter_eq_self]
  intro e he
  obtain ⟨dt, hdt⟩ := Option.isSome_iff_exists.mp (h e he)
  simp [keepEvent, hdt]

/-- C3 witness: a concrete two-record collection with parseable
timestamps is returned unchanged by the unbounded filter. -/
theorem C3_witness :
    filter_by_date
      [.dict [("eventDate", .str "2024-03-15T10:00:00Z"), ("actionType", .str "login")],
       .dict [("eventDate", .str "2025-01-02T03:04:05Z")]] "" "" =
    .ok [.dict [("eventDate", .str "2024-03-15T10:00:00Z"), ("actionType", .str "login")],
         .dict [("eventDate", .str "2025-01-02T03:04:05Z")]] := by
  apply C3_no_bounds_identity
  intro e he
  simp only [List.mem_cons, List.mem_singleton] at he
  rcases he with h | h | h
  · rw [h]; rfl
  · rw [h]; rfl
  · cases h

/-- C2: For every non-empty from or to bound that is not in MM/DD/YYYY
or MM/DD/YY format, `filter_by_date` fails with the `DateFormatError`
of that bound before examining any record: the same error results for
every record collection, so no record is inspected, kept or dropped. -/
theorem C2_invalid_bound_fails_fast (fd td : String)
    (h : (fd ≠ "" ∧ parse_flexible_date fd = Option.none) ∨
         (td ≠ "" ∧ parse_flexible_date td = Option.none)) :
    ∃ err : DateFormatError, ∀ events : List PyVal,
      filter_by_date events fd td = .error err := by
  by_cases hfd : fd ≠ "" ∧ parse_flexible_date fd = Option.none
  · refine ⟨⟨dateFormatErrorMsg fd⟩, fun events => ?_⟩
    unfold filter_by_date
    rw [show parseBound fd = .error ⟨dateFormatErrorMsg fd⟩ by
      simp [parseBound, hfd.1, hfd.2]]
  · have htd : td ≠ "" ∧ parse_flexible_date td = Option.none := h.resolve_left hfd
    refine ⟨⟨dateFormatErrorMsg td⟩, fun events => ?_⟩
    unfold filter_by_date
    have hok : ∃ o, parseBound fd = .ok o := by
      by_cases he : fd = ""
      · exact ⟨Option.none, by simp [parseBound, he]⟩
      · push_neg at hfd
        obtain ⟨D, hD⟩ := Option.ne_none_iff_exists'.mp (hfd he)
        exact ⟨Option.some D, by simp [parseBound, he, hD]⟩
    obtain ⟨o, ho⟩ := hok
    rw [ho]
    rw [show parseBound td = .error ⟨dateFormatErrorMsg td⟩ by
      simp [parseBound, htd.1, htd.2]]

/-- C2 witness: an ISO-format bound `"2024-03-15"` is rejected with the
same `DateFormatError` for two different record collections, including
the empty one. -/
theorem C2_witness :
    ∃ err : DateFormatError,
      filter_by_date [.dict [("eventDate", .str "2024-03-15T10:00:00Z")]] "2024-03-15" "" =
        .error err ∧
      filter_by_date [] "2024-03-15" "" = .error err := by
  obtain ⟨err, herr⟩ := C2_invalid_bound_fails_fast "2024-03-15" ""
    (Or.inl ⟨by decide, by rfl⟩)
  exact ⟨err, herr _, herr []⟩

/-- C1: For every list of records each carrying a parseable `eventDate`
timestamp and every bound string parseable as day `D`, filtering with
`from == to` equal to that bound returns exactly the records whose date
portion (ignoring time of day) equals `D`. -/
theorem C1_from_eq_to_keeps_exactly_that_day (events : List PyVal) (bound : String) (D : Date)
    (hb : parse_flexible_date bound = Option.some D)
    (hall : ∀ e ∈ events, (eventDT e).isSome) :
    filter_by_date events bound bound =
      .ok (events.filter fun e => decide ((eventDT e).map DateTime.dateOf = Option.some D)) := by
  have hne := parse_flexible_date_ne_empty hb
  have hpb : parseBound bound = .ok (Option.some D) := by simp [parseBound, hne, hb]
  simp only [filter_by_date, hpb]
  congr 1
  apply List.filter_congr
  intro e he
  obtain ⟨dt, hdt⟩ := Option.isSome_iff_exists.mp (hall e he)
  simp only [keepEvent, hdt]
  rw [dateLe_and_dateLe]
  simp

/-- C1 witness: the claim's example — a record stamped
`"2024-03-15T10:00:00Z"` is retained for `from = to = "03/15/2024"` and
dropped for `from = to = "03/16/2024"`. -/
theorem C1_witness :
    filter_by_date [.dict [("eventDate", .str "2024-03-15T10:00:00Z")]]
      "03/15/2024" "03/15/2024" =
      .ok [.dict [("eventDate", .str "2024-03-15T10:00:00Z")]] ∧
    filter_by_date [.dict [("eventDate", .str "2024-03-15T10:00:00Z")]]
      "03/16/2024" "03/16/2024" = .ok [] := by
  constructor
  · rw [C1_from_eq_to_keeps_exactly_that_day _ "03/15/2024" ⟨2024, 3, 15⟩ rfl ?keep]
    · rfl
    case keep =>
      intro e he
      simp only [List.mem_singleton] at he
      rw [he]
      rfl
  · rw [C1_from_eq_to_keeps_exactly_that_day _ "03/16/2024" ⟨2024, 3, 16⟩ rfl ?drop]
    · rfl
    case drop =>
      intro e he
      simp only [List.mem_singleton] at he
      rw [he]
      rfl

/-- C6: For every scan record whose `statusDetails` is
`[{"name": "sast", "status": "Completed", "loc": 1200}]`, the flattened
row has `sast_status = "Completed"`, `sast_lines_of_code = "1200"`, and
`"NA"` for every other known engine status. -/
theorem C6_sast_example_statuses (scan row : PyDict)
    (hs : lookupD scan "statusDetails" = Option.some (.list
      [.dict [("name", .str "sast"), ("status", .str "Completed"), ("loc", .int 1200)]]))
    (hf : flatten_scan scan = .ok row) :
    lookupD row "sast_status" = Option.some (.str "Completed") ∧
    lookupD row "sast_lines_of_code" = Option.some (.str "1200") ∧
    lookupD row "general_status" = Option.some (.str "NA") ∧
    lookupD row "sca_status" = Option.some (.str "NA") ∧
    lookupD row "apisec_status" = Option.some (.str "NA") ∧
    lookupD row "containers_status" = Option.some (.str "NA") ∧
    lookupD row "kics_status" = Option.some (.str "NA") ∧
    lookupD row "microengines_status" = Option.some (.str "NA") := by
  have hsd : getD scan "statusDetails" (.list []) = PyVal.list
      [.dict [("name", .str "sast"), ("status", .str "Completed"), ("loc", .int 1200)]] := by
    simp [getD, hs]
  cases hrf : repoFields scan (getD scan "metadata" (.dict [])) with
  | error e =>
    simp only [flatten_scan, extract_scan_fields, hrf] at hf
    exact Except.noConfusion hf
  | ok q =>
    obtain ⟨rt, ru, br, pid⟩ := q
    cases hcf : configFields (getD scan "metadata" (.dict [])) with
    | error e =>
      simp only [flatten_scan, extract_scan_fields, hrf, hcf] at hf
      exact Except.noConfusion hf
    | ok q2 =>
      obtain ⟨ee, sc, scac, mic⟩ := q2
      simp only [flatten_scan, extract_scan_fields, hrf, hcf, hsd, Except.ok.injEq] at hf
      subst hf
      refine ⟨?_, ?_, ?_, ?_, ?_, ?_, ?_, ?_⟩ <;>
        exact lookupD_foldl_passStep_some scan rfl

/-- C6 witness: the theorem applied to the concrete one-field scan
record of the claim's example. -/
theorem C6_witness :
    ∃ row : PyDict,
      flatten_scan [("statusDetails", .list
        [.dict [("name", .str "sast"), ("status", .str "Completed"), ("loc", .int 1200)]])] =
        .ok row ∧
      lookupD row "sast_status" = Option.some (.str "Completed") ∧
      lookupD row "sast_lines_of_code" = Option.some (.str "1200") ∧
      lookupD row "general_status" = Option.some (.str "NA") := by
  obtain ⟨row, hrow⟩ : ∃ row, flatten_scan [("statusDetails", .list
      [.dict [("name", .str "sast"), ("status", .str "Completed"), ("loc", .int 1200)]])] =
      .ok row := ⟨_, rfl⟩
  obtain ⟨h1, h2, h3, _⟩ := C6_sast_example_statuses
    [("statusDetails", .list
      [.dict [("name", .str "sast"), ("status", .str "Completed"), ("loc", .int 1200)]])]
    row rfl hrow
  exact ⟨row, hrow, h1, h2, h3⟩

/-- C8: evaluation of the worksheet-creation code at the failing input.
The scans ARE partitioned into one worksheet per distinct engine value,
but every worksheet is created with the literal title `"Scans"`
(output.py line 300); the sanitized category-derived name the source
computes on line 299 (`safe_sheet_name`, here `"sast"`) is never used.
Two engine groups even produce two sheets with the same title. -/
theorem C8_sheet_title_is_not_category_derived :
    scanWorksheetTitles [[("engine", .str "sast"), ("id", .str "s1")]] = ["Scans"] ∧
    scanWorksheetTitles
      [[("engine", .str "sast")], [("engine", .str "sca")], [("engine", .str "sast")]] =
      ["Scans", "Scans"] ∧
    safe_sheet_name (.str "sast") = "sast" ∧
    ("Scans" : String) ≠ "sast" := by
  exact ⟨rfl, rfl, rfl, by decide⟩

theorem foldl_append_filter (pl l acc : List String) :
    pl.foldl (fun acc col => if col ∈ l then acc ++ [col] else acc) acc =
      acc ++ pl.filter (fun c => c ∈ l) := by
  induction pl generalizing acc with
  | nil => simp
  | cons p rest ih =>
    by_cases h : p ∈ l
    · simp [h, ih, List.filter_cons]
    · simp [h, ih, List.filter_cons]

/-- C5: Column ordering is a deterministic function of the set of
discovered column names: the names on the fixed priority list come
first, in the priority list's literal order, and every remaining
discovered name follows, sorted lexicographically; two inputs denoting
the same set produce the identical ordered list. -/
theorem C5_order_columns_deterministic (l₁ l₂ : List String)
    (h : l₁.toFinset = l₂.toFinset) :
    order_columns l₁ = order_columns l₂ ∧
    ∃ rest : List String,
      order_columns l₁ = logical_column_order.filter (fun c => c ∈ l₁) ++ rest ∧
      rest.Sorted (· ≤ ·) ∧
      (∀ c, c ∈ rest ↔ c ∈ l₁ ∧ c ∉ logical_column_order) := by
  have hmem : ∀ c, c ∈ l₁ ↔ c ∈ l₂ := by
    intro c
    rw [← List.mem_toFinset, h, List.mem_toFinset]
  have hord : ∀ l : List String, logical_column_order.foldl
      (fun acc col => if col ∈ l then acc ++ [col] else acc) [] =
      logical_column_order.filter (fun c => c ∈ l) := by
    intro l
    simpa using foldl_append_filter logical_column_order l []
  have hfeq : logical_column_order.filter (fun c => c ∈ l₁) =
      logical_column_order.filter (fun c => c ∈ l₂) :=
    List.filter_congr fun c _ => by simp [hmem c]
  constructor
  · simp only [order_columns]
    rw [hord l₁, hord l₂, hfeq]
    congr 1
    apply List.eq_of_perm_of_sorted ?_ (List.sorted_insertionSort _ _)
      (List.sorted_insertionSort _ _)
    refine (List.perm_insertionSort _ _).trans
      (List.Perm.trans ?_ (List.perm_insertionSort _ _).symm)
    apply (List.perm_ext_iff_of_nodup ((l₁.nodup_dedup).filter _)
      ((l₂.nodup_dedup).filter _)).mpr
    intro c
    simp only [List.mem_filter, List.mem_dedup]
    rw [hmem c]
  · rw [show order_columns l₁ = logical_column_order.filter (fun c => c ∈ l₁) ++
        List.insertionSort (· ≤ ·) (l₁.dedup.filter (fun c =>
          c ∉ logical_column_order.filter (fun c => c ∈ l₁))) from by
      simp only [order_columns]
      rw [hord l₁]]
    refine ⟨_, rfl, List.sorted_insertionSort _ _, ?_⟩
    intro c
    rw [List.mem_insertionSort]
    simp only [List.mem_filter, List.mem_dedup, decide_eq_true_eq, List.mem_filter,
      decide_not, Bool.not_eq_true', decide_eq_false_iff_not]
    constructor
    · rintro ⟨hc, hn⟩
      exact ⟨hc, fun hl => hn ⟨hl, hc⟩⟩
    · rintro ⟨hc, hn⟩
      exact ⟨hc, fun hb => hn hb.1⟩

/-- C5 witness: two lists denoting the same set of column names (in
different orders, one with a duplicate) produce the identical ordered
column list. -/
theorem C5_witness :
    order_columns ["zeta", "branch", "alpha", "status"] =
      order_columns ["alpha", "status", "zeta", "branch", "alpha"] :=
  (C5_order_columns_deterministic ["zeta", "branch", "alpha", "status"]
    ["alpha", "status", "zeta", "branch", "alpha"] (by decide)).1

theorem foldl_collect_congr (fetch₁ fetch₂ : PyVal → Except String (List PyVal × String))
    (ls : List PyVal) (acc : List PyVal × List String)
    (h : ∀ l ∈ ls, fetch₁ l = fetch₂ l) :
    ls.foldl (collectLinkStep fetch₁) acc = ls.foldl (collectLinkStep fetch₂) acc := by
  induction ls generalizing acc with
  | nil => rfl
  | cons l rest ih =>
    simp only [List.foldl_cons]
    rw [show collectLinkStep fetch₁ acc l = collectLinkStep fetch₂ acc l from by
      simp [collectLinkStep, h l (by simp)]]
    exact ih _ fun x hx => h x (by simp [hx])

theorem foldl_collect_all_ok (F : PyVal → List PyVal × String)
    (fetch : PyVal → Except String (List PyVal × String))
    (ls : List PyVal) (acc : List PyVal × List String)
    (h : ∀ l ∈ ls, fetch l = .ok (F l)) :
    ls.foldl (collectLinkStep fetch) acc =
      (acc.1 ++ (ls.map fun l => (F l).1).flatten, acc.2 ++ ls.map fun l => (F l).2) := by
  induction ls generalizing acc with
  | nil => simp
  | cons l rest ih =>
    simp only [List.foldl_cons]
    rw [show collectLinkStep fetch acc l = (acc.1 ++ (F l).1, acc.2 ++ [(F l).2]) from by
      simp [collectLinkStep, h l (by simp)]]
    rw [ih _ fun x hx => h x (by simp [hx])]
    simp

/-- C9: When a from or to bound is given, both the root events list and
the links list are filtered by date before any link is followed — the
result depends on the fetch oracle only at links surviving the filter,
and the returned links are exactly the filtered ones (with formatted
dates added); with no bounds, every link of the root response is
followed. -/
theorem C9_links_filtered_before_follow (base : String) (resp : AuditResponse)
    (fd td : String) :
    ((fd ≠ "" ∨ td ≠ "") → ∀ ls, filter_by_date resp.links fd td = .ok ls →
      (∀ fetch₁ fetch₂, (∀ l ∈ ls, fetch₁ l = fetch₂ l) →
        get_audit_events base fetch₁ resp fd td = get_audit_events base fetch₂ resp fd td) ∧
      (∀ fetch, (get_audit_events base fetch resp fd td).map AuditResult.links =
        (filter_by_date resp.events fd td).map fun _ => add_formatted_date ls)) ∧
    (fd = "" ∧ td = "" → ∀ (F : PyVal → List PyVal × String) fetch,
      (∀ l ∈ resp.links, fetch l = .ok (F l)) →
      get_audit_events base fetch resp fd td = .ok
        { events := add_formatted_date
            (resp.events ++ (resp.links.map fun l => (F l).1).flatten),
          links := add_formatted_date resp.links,
          curl_audit_request_equivalent := rootCurl base,
          curl_equivalents_for_links := resp.links.map fun l => (F l).2 }) := by
  constructor
  · intro hb ls hls
    constructor
    · intro fetch₁ fetch₂ hagree
      cases hfe : filter_by_date resp.events fd td with
      | error e => simp only [get_audit_events, if_pos hb, hfe]
      | ok es =>
        simp only [get_audit_events, if_pos hb, hfe, hls]
        rw [foldl_collect_congr fetch₁ fetch₂ ls (es, []) hagree]
    · intro fetch
      cases hfe : filter_by_date resp.events fd td with
      | error e => simp only [get_audit_events, if_pos hb, hfe, Except.map]
      | ok es => simp only [get_audit_events, if_pos hb, hfe, hls, Except.map]
  · rintro ⟨hfd, htd⟩ F fetch hok
    subst hfd htd
    have hcond : ¬(("" : String) ≠ "" ∨ ("" : String) ≠ "") := by simp
    simp only [get_audit_events, if_neg hcond]
    rw [foldl_collect_all_ok F fetch resp.links (resp.events, []) hok]
    rfl

/-- C9 witness: with bounds, a root response whose two links carry one
in-range and one out-of-range date has exactly the in-range link
followed (the other's oracle value is irrelevant), and the returned
links are the filtered ones; with no bounds both links are followed. -/
theorem C9_witness :
    (get_audit_events "https://api" (fun _ => .error "unreached")
        { events := [],
          links := [.dict [("url", .str "u1"), ("eventDate", .str "2024-03-15T01:00:00Z")],
                    .dict [("url", .str "u2"), ("eventDate", .str "2024-04-01T01:00:00Z")]] }
        "03/15/2024" "03/15/2024" =
      get_audit_events "https://api"
        (fun l => match l with
          | .dict (("url", .str "u1") :: _) => .error "unreached"
          | _ => .ok ([], "curl"))
        { events := [],
          links := [.dict [("url", .str "u1"), ("eventDate", .str "2024-03-15T01:00:00Z")],
                    .dict [("url", .str "u2"), ("eventDate", .str "2024-04-01T01:00:00Z")]] }
        "03/15/2024" "03/15/2024") ∧
    get_audit_events "https://api"
        (fun l => .ok ([l], "curl"))
        { events := [], links := [.dict [("url", .str "u1")], .dict [("url", .str "u2")]] }
        "" "" =
      .ok { events := [.dict [("url", .str "u1")], .dict [("url", .str "u2")]],
            links := [.dict [("url", .str "u1")], .dict [("url", .str "u2")]],
            curl_audit_request_equivalent := rootCurl "https://api",
            curl_equivalents_for_links := ["curl", "curl"] } := by
  constructor
  · exact ((C9_links_filtered_before_follow "https://api" _ "03/15/2024" "03/15/2024").1
      (by simp) [.dict [("url", .str "u1"), ("eventDate", .str "2024-03-15T01:00:00Z")]]
      (by rfl)).1 _ _ (by
        intro l hl
        simp only [List.mem_singleton] at hl
        subst hl
        rfl)
  · rw [(C9_links_filtered_before_follow "https://api" _ "" "").2 ⟨rfl, rfl⟩
      (fun l => ([l], "curl")) _ (fun l _ => rfl)]
    rfl

/-- C10: If, among the links actually followed, exactly one link's fetch
fails, `get_audit_events` still returns normally: the merged events are
the (filtered) root-list records plus every other link's records, in
completion order, and the failing link contributes nothing — it neither
aborts the run nor removes the other links' contributions (the source
additionally logs the failure, a side effect outside this embedding). -/
theorem C10_single_link_failure (base : String) (resp : AuditResponse) (fd td : String)
    (es ls₁ ls₂ : List PyVal) (bad : PyVal) (msg : String)
    (F : PyVal → List PyVal × String)
    (fetch : PyVal → Except String (List PyVal × String))
    (he : (if fd ≠ "" ∨ td ≠ "" then filter_by_date resp.events fd td
           else .ok resp.events) = .ok es)
    (hl : (if fd ≠ "" ∨ td ≠ "" then filter_by_date resp.links fd td
           else .ok resp.links) = .ok (ls₁ ++ bad :: ls₂))
    (hbad : fetch bad = .error msg)
    (hok : ∀ l ∈ ls₁ ++ ls₂, fetch l = .ok (F l)) :
    get_audit_events base fetch resp fd td = .ok
      { events := add_formatted_date
          (es ++ ((ls₁ ++ ls₂).map fun l => (F l).1).flatten),
        links := add_formatted_date (ls₁ ++ bad :: ls₂),
        curl_audit_request_equivalent := rootCurl base,
        curl_equivalents_for_links := (ls₁ ++ ls₂).map fun l => (F l).2 } := by
  simp only [get_audit_events, he, hl]
  rw [List.foldl_append]
  rw [foldl_collect_all_ok F fetch ls₁ (es, []) fun l h => hok l (by simp [h])]
  simp only [List.foldl_cons]
  rw [show collectLinkStep fetch
      (es ++ (ls₁.map fun l => (F l).1).flatten, [] ++ ls₁.map fun l => (F l).2) bad =
      (es ++ (ls₁.map fun l => (F l).1).flatten, [] ++ ls₁.map fun l => (F l).2) from by
    simp [collectLinkStep, hbad]]
  rw [foldl_collect_all_ok F fetch ls₂ _ fun l h => hok l (by simp [h])]
  simp

/-- C10 witness: the claim's example — four links, the second of which
fails; the merged collection holds the root event plus the three
successful links' records and the run returns normally. -/
theorem C10_witness :
    get_audit_events "https://api"
      (fun l => match l with
        | .dict [("url", .str "u2")] => .error "network error"
        | .dict [("url", .str s)] => .ok ([.dict [("from", .str s)]], "curl " ++ s)
        | _ => .error "missing url")
      { events := [.dict [("root", .str "r1")]],
        links := [.dict [("url", .str "u1")], .dict [("url", .str "u2")],
                  .dict [("url", .str "u3")], .dict [("url", .str "u4")]] }
      "" "" =
    .ok { events := [.dict [("root", .str "r1")], .dict [("from", .str "u1")],
            .dict [("from", .str "u3")], .dict [("from", .str "u4")]],
          links := [.dict [("url", .str "u1")], .dict [("url", .str "u2")],
                    .dict [("url", .str "u3")], .dict [("url", .str "u4")]],
          curl_audit_request_equivalent := rootCurl "https://api",
          curl_equivalents_for_links := ["curl u1", "curl u3", "curl u4"] } := by
  rw [C10_single_link_failure "https://api"
    { events := [.dict [("root", .str "r1")]],
      links := [.dict [("url", .str "u1")], .dict [("url", .str "u2")],
                .dict [("url", .str "u3")], .dict [("url", .str "u4")]] }
    "" "" [.dict [("root", .str "r1")]]
    [.dict [("url", .str "u1")]] [.dict [("url", .str "u3")], .dict [("url", .str "u4")]]
    (.dict [("url", .str "u2")]) "network error"
    (fun l => match l with
      | .dict [("url", .str s)] => ([.dict [("from", .str s)]], "curl " ++ s)
      | _ => ([], ""))
    _ (by rfl) (by rfl) (by rfl) ?ok]
  · rfl
  case ok =>
    intro l hl
    simp only [List.mem_append, List.mem_cons, List.mem_singleton, List.not_mem_nil,
      or_false] at hl
    rcases hl with h | h | h <;> (subst h; rfl)

/-- C4 counterexample: for the scan record
`{"statusDetails": [{"name": "sast", "status": "Completed", "loc": 1200}]}`
the first flattening yields `sast_status = "Completed"`, but flattening
the already-flattened row again yields `sast_status = "NA"`: the first
pass stringified `statusDetails`, so the second extraction no longer
sees a status list.  Re-flattening thus changes a fixed extracted field,
refuting the claim as stated. -/
theorem C4_counterexample :
    ∃ r₁ r₂ : PyDict,
      flatten_scan [("statusDetails", .list
        [.dict [("name", .str "sast"), ("status", .str "Completed"), ("loc", .int 1200)]])] =
        .ok r₁ ∧
      flatten_scan r₁ = .ok r₂ ∧
      lookupD r₁ "sast_status" = Option.some (.str "Completed") ∧
      lookupD r₂ "sast_status" = Option.some (.str "NA") ∧
      lookupD r₂ "sast_status" ≠ lookupD r₁ "sast_status" := by
  refine ⟨[("scan_id", .str "NA"), ("repository_type", .str "NA"),
      ("repository_url", .str "NA"), ("branch", .str "NA"), ("project_id", .str "NA"),
      ("enabled_scan_engines", .str "NA"), ("sast_configuration", .str "NA"),
      ("sca_containers_enabled", .str "NA"), ("microengines_enabled", .str "NA"),
      ("created_date", .str "NA"), ("general_status", .str "NA"),
      ("sast_status", .str "Completed"), ("sast_lines_of_code", .str "1200"),
      ("sca_status", .str "NA"), ("apisec_status", .str "NA"),
      ("containers_status", .str "NA"), ("kics_status", .str "NA"),
      ("microengines_status", .str "NA"),
      ("statusDetails",
        .str "\x7b\x27name\x27: \x27sast\x27, \x27status\x27: \x27Completed\x27, \x27loc\x27: 1200\x7d")],
    [("scan_id", .str "NA"), ("repository_type", .str "NA"),
      ("repository_url", .str "NA"), ("branch", .str "NA"), ("project_id", .str "NA"),
      ("enabled_scan_engines", .str "NA"), ("sast_configuration", .str "NA"),
      ("sca_containers_enabled", .str "NA"), ("microengines_enabled", .str "NA"),
      ("created_date", .str "NA"), ("general_status", .str "NA"),
      ("sast_status", .str "NA"), ("sca_status", .str "NA"), ("apisec_status", .str "NA"),
      ("containers_status", .str "NA"), ("kics_status", .str "NA"),
      ("microengines_status", .str "NA"), ("sast_lines_of_code", .str "NA"),
      ("statusDetails",
        .str "\x7b\x27name\x27: \x27sast\x27, \x27status\x27: \x27Completed\x27, \x27loc\x27: 1200\x7d")],
    rfl, rfl, rfl, rfl, by simp [lookupD]⟩

theorem lookupD_noMetaExtractRow_metadata (a b c d : PyVal) :
    lookupD (noMetaExtractRow a b c d) "metadata" = Option.none := rfl

theorem lookupD_noMetaExtractRow_statusDetails (a b c d : PyVal) :
    lookupD (noMetaExtractRow a b c d) "statusDetails" = Option.none := rfl

theorem lookupD_noMetaExtractRow_id (a b c d : PyVal) :
    lookupD (noMetaExtractRow a b c d) "id" = Option.none := rfl

theorem lookupD_noMetaExtractRow_projectId (a b c d : PyVal) :
    lookupD (noMetaExtractRow a b c d) "projectId" = Option.none := rfl

theorem lookupD_noMetaExtractRow_createdAt (a b c d : PyVal) :
    lookupD (noMetaExtractRow a b c d) "createdAt" = Option.none := rfl

theorem lookupD_noMetaExtractRow_branch (a b c d : PyVal) :
    lookupD (noMetaExtractRow a b c d) "branch" = Option.some b := rfl

theorem extract_scan_fields_no_meta_no_sd (scan : PyDict)
    (hm : lookupD scan "metadata" = Option.none)
    (hsd : lookupD scan "statusDetails" = Option.none) :
    extract_scan_fields scan = .ok (noMetaExtractRow
      (getD scan "id" (.str "NA")) (getD scan "branch" (.str "NA"))
      (getD scan "projectId" (.str "NA"))
      (createdDateField (lookupD scan "createdAt") (.dict []))) := by
  have hmd : getD scan "metadata" (.dict []) = PyVal.dict [] := by simp [getD, hm]
  have hsd1 : getD scan "statusDetails" (.list []) = PyVal.list [] := by simp [getD, hsd]
  simp only [extract_scan_fields, hmd, hsd1]
  rw [show repoFields scan (.dict []) = Except.ok (PyVal.str "NA", PyVal.str "NA",
      getD scan "branch" (.str "NA"), getD scan "projectId" (.str "NA")) from by
    simp [repoFields, getD, lookupD]]
  rw [show configFields (.dict []) = Except.ok (PyVal.str "NA", PyVal.str "NA",
      PyVal.str "NA", PyVal.str "NA") from by simp [configFields, getD, lookupD]]
  rfl

/-- C4 amended: flattening is idempotent on the fixed extracted fields
for every scan record that has no `metadata` and no `statusDetails` key
and whose `id`, `projectId` and `createdAt` values (if present) are left
unchanged by the pass-through sanitization (for example plain non-empty
strings).  For records with structured metadata or status details the
first pass stringifies those structures, so re-flattening resets the
structure-derived fixed fields to `"NA"` (see the counterexample). -/
theorem C4_amended_idempotent_on_fixed_fields (scan : PyDict)
    (hm : lookupD scan "metadata" = Option.none)
    (hsd : lookupD scan "statusDetails" = Option.none)
    (hid : ∀ v, lookupD scan "id" = Option.some v → sanitizeVal v = v)
    (hpid : ∀ v, lookupD scan "projectId" = Option.some v → sanitizeVal v = v)
    (hca : ∀ v, lookupD scan "createdAt" = Option.some v → sanitizeVal v = v) :
    ∃ r₁ r₂ : PyDict,
      flatten_scan scan = .ok r₁ ∧ flatten_scan r₁ = .ok r₂ ∧
      ∀ k ∈ fixedScanFields, lookupD r₂ k = lookupD r₁ k := by
  have hE1 := extract_scan_fields_no_meta_no_sd scan hm hsd
  have hflat1 : flatten_scan scan = .ok (scan.foldl passStep (noMetaExtractRow
      (getD scan "id" (.str "NA")) (getD scan "branch" (.str "NA"))
      (getD scan "projectId" (.str "NA"))
      (createdDateField (lookupD scan "createdAt") (.dict [])))) := by
    simp only [flatten_scan, hE1]
  have hr1m : lookupD (scan.foldl passStep (noMetaExtractRow
      (getD scan "id" (.str "NA")) (getD scan "branch" (.str "NA"))
      (getD scan "projectId" (.str "NA"))
      (createdDateField (lookupD scan "createdAt") (.dict [])))) "metadata" =
      Option.none := by
    rw [lookupD_foldl_passStep_none scan _ (lookupD_noMetaExtractRow_metadata _ _ _ _), hm]
    rfl
  have hr1sd : lookupD (scan.foldl passStep (noMetaExtractRow
      (getD scan "id" (.str "NA")) (getD scan "branch" (.str "NA"))
      (getD scan "projectId" (.str "NA"))
      (createdDateField (lookupD scan "createdAt") (.dict [])))) "statusDetails" =
      Option.none := by
    rw [lookupD_foldl_passStep_none scan _ (lookupD_noMetaExtractRow_statusDetails _ _ _ _),
      hsd]
    rfl
  have hA : getD (scan.foldl passStep (noMetaExtractRow
      (getD scan "id" (.str "NA")) (getD scan "branch" (.str "NA"))
      (getD scan "projectId" (.str "NA"))
      (createdDateField (lookupD scan "createdAt") (.dict [])))) "id" (.str "NA") =
      getD scan "id" (.str "NA") := by
    unfold getD
    rw [lookupD_foldl_passStep_none scan _ (lookupD_noMetaExtractRow_id _ _ _ _)]
    cases hv : lookupD scan "id" with
    | none => rfl
    | some v => simp [hid v hv]
  have hB : getD (scan.foldl passStep (noMetaExtractRow
      (getD scan "id" (.str "NA")) (getD scan "branch" (.str "NA"))
      (getD scan "projectId" (.str "NA"))
      (createdDateField (lookupD scan "createdAt") (.dict [])))) "branch" (.str "NA") =
      getD scan "branch" (.str "NA") := by
    unfold getD
    rw [lookupD_foldl_passStep_some scan (lookupD_noMetaExtractRow_branch _ _ _ _)]
    rfl
  have hC : getD (scan.foldl passStep (noMetaExtractRow
      (getD scan "id" (.str "NA")) (getD scan "branch" (.str "NA"))
      (getD scan "projectId" (.str "NA"))
      (createdDateField (lookupD scan "createdAt") (.dict [])))) "projectId" (.str "NA") =
      getD scan "projectId" (.str "NA") := by
    unfold getD
    rw [lookupD_foldl_passStep_none scan _ (lookupD_noMetaExtractRow_projectId _ _ _ _)]
    cases hv : lookupD scan "projectId" with
    | none => rfl
    | some v => simp [hpid v hv]
  have hD : lookupD (scan.foldl passStep (noMetaExtractRow
      (getD scan "id" (.str "NA")) (getD scan "branch" (.str "NA"))
      (getD scan "projectId" (.str "NA"))
      (createdDateField (lookupD scan "createdAt") (.dict [])))) "createdAt" =
      lookupD scan "createdAt" := by
    rw [lookupD_foldl_passStep_none scan _ (lookupD_noMetaExtractRow_createdAt _ _ _ _)]
    cases hv : lookupD scan "createdAt" with
    | none => rfl
    | some v => simp [hca v hv]
  have hE2 := extract_scan_fields_no_meta_no_sd _ hr1m hr1sd
  rw [hA, hB, hC, hD] at hE2
  have hflat2 : flatten_scan (scan.foldl passStep (noMetaExtractRow
      (getD scan "id" (.str "NA")) (getD scan "branch" (.str "NA"))
      (getD scan "projectId" (.str "NA"))
      (createdDateField (lookupD scan "createdAt") (.dict [])))) =
      .ok ((scan.foldl passStep (noMetaExtractRow
        (getD scan "id" (.str "NA")) (getD scan "branch" (.str "NA"))
        (getD scan "projectId" (.str "NA"))
        (createdDateField (lookupD scan "createdAt") (.dict [])))).foldl passStep
          (noMetaExtractRow
            (getD scan "id" (.str "NA")) (getD scan "branch" (.str "NA"))
            (getD scan "projectId" (.str "NA"))
            (createdDateField (lookupD scan "createdAt") (.dict [])))) := by
    simp only [flatten_scan, hE2]
  refine ⟨_, _, hflat1, hflat2, ?_⟩
  intro k hk
  have h1 : ∀ v, lookupD (noMetaExtractRow
      (getD scan "id" (.str "NA")) (getD scan "branch" (.str "NA"))
      (getD scan "projectId" (.str "NA"))
      (createdDateField (lookupD scan "createdAt") (.dict []))) k = Option.some v →
      lookupD ((scan.foldl passStep (noMetaExtractRow
          (getD scan "id" (.str "NA")) (getD scan "branch" (.str "NA"))
          (getD scan "projectId" (.str "NA"))
          (createdDateField (lookupD scan "createdAt") (.dict [])))).foldl passStep
        (noMetaExtractRow
          (getD scan "id" (.str "NA")) (getD scan "branch" (.str "NA"))
          (getD scan "projectId" (.str "NA"))
          (createdDateField (lookupD scan "createdAt") (.dict [])))) k = Option.some v ∧
      lookupD (scan.foldl passStep (noMetaExtractRow
          (getD scan "id" (.str "NA")) (getD scan "branch" (.str "NA"))
          (getD scan "projectId" (.str "NA"))
          (createdDateField (lookupD scan "createdAt") (.dict [])))) k = Option.some v :=
    fun v hv => ⟨lookupD_foldl_passStep_some _ hv, lookupD_foldl_passStep_some scan hv⟩
  fin_cases hk <;>
    exact ((h1 _ rfl).1.trans ((h1 _ rfl).2).symm)

/-- C4 witness for the amended claim: a concrete metadata-free scan
record whose fixed fields survive a second flattening unchanged. -/
theorem C4_amended_witness :
    ∃ r₁ r₂ : PyDict,
      flatten_scan [("id", .str "scan-1"), ("branch", .str "main"),
        ("createdAt", .str "2025-10-10T20:32:35.223Z")] = .ok r₁ ∧
      flatten_scan r₁ = .ok r₂ ∧
      ∀ k ∈ fixedScanFields, lookupD r₂ k = lookupD r₁ k := by
  apply C4_amended_idempotent_on_fixed_fields
  · rfl
  · rfl
  · intro v hv
    cases hv
    rfl
  · intro v hv
    cases hv
  · intro v hv
    cases hv
    rfl

/-! Sanity checks: the embedded functions evaluated on concrete inputs. -/

example : pyStr (.dict [("name", .str "sast"), ("loc", .int 1200)]) =
    "\x7b\x27name\x27: \x27sast\x27, \x27loc\x27: 1200\x7d" := by rfl

example : (if ("a" : String) = "b" then 1 else 2) = 2 := by simp

example : lookupD [("a", .int 1), ("b", .int 2)] "b" = Option.some (.int 2) := by rfl

example : Option.some (PyVal.str "NA") ≠ Option.some (PyVal.str "Completed") := by simp

example : parse_flexible_date "03/15/2024" = Option.some ⟨2024, 3, 15⟩ := by rfl

example : parse_flexible_date "3/5/24" = Option.some ⟨2024, 3, 5⟩ := by rfl

example : parse_flexible_date "2024-03-15" = Option.none := by rfl

example : parse_flexible_date "02/30/2024" = Option.none := by rfl

example : parse_flexible_date "" = Option.none := by rfl

example : isoparse "2024-03-15T10:00:00Z" = Option.some ⟨2024, 3, 15, 10, 0, 0⟩ := by rfl

example : isoparse "2025-10-10T20:32:35.22344Z" = Option.some ⟨2025, 10, 10, 20, 32, 35⟩ := by rfl

example : isoparse "2024-03-15" = Option.some ⟨2024, 3, 15, 0, 0, 0⟩ := by rfl

example : isoparse "03/15/2024" = Option.none := by rfl

example :
    filter_by_date [.dict [("eventDate", .str "2024-03-15T10:00:00Z")]] "03/15/2024" "03/15/2024" =
      .ok [.dict [("eventDate", .str "2024-03-15T10:00:00Z")]] := by rfl

example :
    filter_by_date [.dict [("eventDate", .str "2024-03-15T10:00:00Z")]] "03/16/2024" "03/16/2024" =
      .ok [] := by rfl

example :
    filter_by_date [.dict [("eventDate", .str "2024-03-15T10:00:00Z")]] "13/16/2024" "" =
      .error ⟨dateFormatErrorMsg "13/16/2024"⟩ := by rfl

example :
    flatten_scan [("statusDetails",
      .list [.dict [("name", .str "sast"), ("status", .str "Completed"), ("loc", .int 1200)]])] =
    .ok ([("scan_id", .str "NA"), ("repository_type", .str "NA"), ("repository_url", .str "NA"),
      ("branch", .str "NA"), ("project_id", .str "NA"), ("enabled_scan_engines", .str "NA"),
      ("sast_configuration", .str "NA"), ("sca_containers_enabled", .str "NA"),
      ("microengines_enabled", .str "NA"), ("created_date", .str "NA"),
      ("general_status", .str "NA"), ("sast_status", .str "Completed"),
      ("sast_lines_of_code", .str "1200"), ("sca_status", .str "NA"),
      ("apisec_status", .str "NA"), ("containers_status", .str "NA"),
      ("kics_status", .str "NA"), ("microengines_status", .str "NA"),
      ("statusDetails",
        .str "\x7b\x27name\x27: \x27sast\x27, \x27status\x27: \x27Completed\x27, \x27loc\x27: 1200\x7d")]) := by
  rfl
